import Mathlib

/-!
# Verification of the grocery/meal-planner server handlers

A shallow embedding of the TypeScript handlers in `src/server/src/handlers`
(and the unnamed handler files) of the grocery meal-planner repository,
together with proofs of the testable properties stated in the spec.

Modelling conventions, used consistently below:

* Instants (JS `Date` values, `new Date()` results, timestamps) are seconds
  since the Unix epoch, as an `Int`.  The runtime is modelled in UTC, so a
  civil day is exactly `86400` seconds and `setHours(0,0,0,0)` truncates an
  instant to the start of its day.
* Calendar dates (the SQL `date` columns, date-only strings such as
  `"2024-12-16"`, and the result of `toISOString().split("T")[0]`) are civil
  day numbers: the number of days since 1970-01-01.  Parsing a date-only
  string with `new Date(s)` yields the instant `day * 86400` (midnight UTC),
  exactly as in JS.
* The relational store is an explicit record of lists of rows; `serial`
  primary keys are modelled with explicit next-id counters, and the
  `defaultNow()` column defaults are modelled by passing the current instant
  into each operation.
* External calls (the inventory endpoint, the meal-plan API, `JSON.parse`,
  `JSON.stringify`) are modelled as explicit arguments describing their
  outcome, since they are outside the program.
-/

/-- Seconds in one civil day (UTC model, matching JS `Date` arithmetic). -/
def secondsPerDay : Int := 86400

/-- Civil day number of an instant: the date part of `toISOString()`.
`Int` division is Euclidean, i.e. it floors for the positive divisor, which
matches the calendar day an instant falls in, also before the epoch. -/
def dayOfInstant (t : Int) : Int := t / secondsPerDay

/-- Start of the civil day of an instant: JS `setHours(0,0,0,0)` in UTC. -/
def startOfDay (t : Int) : Int := dayOfInstant t * secondsPerDay

/-- Weekday of a civil day number, in the JS `Date.getDay()` convention:
Sunday = 0, Monday = 1, …, Saturday = 6.  Day 0 (1970-01-01) was a
Thursday, hence the offset 4. -/
def weekdayOfDay (day : Int) : Int := (day + 4) % 7

/-- JS `date.getDay()` on an instant (UTC model). -/
def jsGetDay (t : Int) : Int := weekdayOfDay (dayOfInstant t)

/-- Civil day number of a Gregorian calendar date (days since 1970-01-01),
the standard days-from-civil computation.  Used only to name concrete dates
such as `"2024-12-21"` in the statements below. -/
def daysFromCivil (y m d : Int) : Int :=
  let y2 : Int := if m ≤ 2 then y - 1 else y
  let era : Int := y2 / 400
  let yoe : Int := y2 - era * 400
  let doy : Int := (153 * (m + (if 2 < m then -3 else 9)) + 2) / 5 + d - 1
  let doe : Int := yoe * 365 + yoe / 4 - yoe / 100 + doy
  era * 146097 + doe - 719468

/-- `getWeekStartDate` from `generate_meal_plan.ts` (lines 12–24): take the
supplied instant, subtract `daysToSubtract = (getDay() + 6) % 7` days, and
normalize to midnight.  Returns the instant of the resulting Monday
midnight. -/
def getWeekStartDate (t : Int) : Int :=
  startOfDay (t - ((jsGetDay t + 6) % 7) * secondsPerDay)

/-- The civil day persisted by the generator for an instant:
`getWeekStartDate(t).toISOString().split("T")[0]` as a day number. -/
def weekStartDay (t : Int) : Int := dayOfInstant (getWeekStartDate t)

-- Arithmetic facts about the day/instant decomposition.

theorem dayOfInstant_sub_days (t k : Int) :
    dayOfInstant (t - k * secondsPerDay) = dayOfInstant t - k := by
  unfold dayOfInstant secondsPerDay
  omega

theorem dayOfInstant_startOfDay (t : Int) :
    dayOfInstant (startOfDay t) = dayOfInstant t := by
  unfold startOfDay dayOfInstant secondsPerDay
  omega

theorem weekStartDay_eq (t : Int) :
    weekStartDay t = dayOfInstant t - (jsGetDay t + 6) % 7 := by
  unfold weekStartDay getWeekStartDate
  rw [dayOfInstant_startOfDay, dayOfInstant_sub_days]

theorem weekday_weekStartDay (t : Int) : weekdayOfDay (weekStartDay t) = 1 := by
  have h := weekStartDay_eq t
  unfold jsGetDay weekdayOfDay at *
  omega

theorem getWeekStartDate_fixed_monday (t : Int) (h : jsGetDay t = 1) :
    weekStartDay t = dayOfInstant t := by
  have h2 := weekStartDay_eq t
  omega

theorem getWeekStartDate_same_week (t : Int) :
    weekStartDay t ≤ dayOfInstant t ∧ dayOfInstant t < weekStartDay t + 7 := by
  have h2 := weekStartDay_eq t
  unfold jsGetDay weekdayOfDay at h2
  omega

theorem dayOfInstant_mul (d : Int) : dayOfInstant (d * secondsPerDay) = d := by
  unfold dayOfInstant secondsPerDay
  omega

theorem getWeekStartDate_eq_weekStartDay_mul (t : Int) :
    getWeekStartDate t = weekStartDay t * secondsPerDay := by
  unfold weekStartDay getWeekStartDate
  rw [dayOfInstant_startOfDay]
  rfl

theorem getWeekStartDate_of_monday_midnight (W : Int) (h : weekdayOfDay W = 1) :
    getWeekStartDate (W * secondsPerDay) = W * secondsPerDay := by
  unfold getWeekStartDate jsGetDay
  rw [dayOfInstant_mul, h]
  unfold startOfDay dayOfInstant secondsPerDay
  omega

theorem getWeekStartDate_idem (t : Int) :
    getWeekStartDate (getWeekStartDate t) = getWeekStartDate t := by
  rw [getWeekStartDate_eq_weekStartDay_mul t]
  exact getWeekStartDate_of_monday_midnight _ (weekday_weekStartDay t)

/-- C2: the week-start computation `getWeekStartDate` subtracts
`(weekday_index + 6) mod 7` days (Sunday = 0 .. Saturday = 6) and normalizes
to midnight, always landing on the Monday of the same week as the supplied
date — the date itself when it is already a Monday; in particular the
week start of 2024-12-21 (a Saturday) is 2024-12-16 and the week start of
2024-12-23 (a Monday) is 2024-12-23 itself. -/
theorem C2_getWeekStartDate_monday_of_same_week :
    (∀ t : Int,
        weekStartDay t = dayOfInstant t - (jsGetDay t + 6) % 7 ∧
        getWeekStartDate t = weekStartDay t * secondsPerDay ∧
        weekdayOfDay (weekStartDay t) = 1 ∧
        weekStartDay t ≤ dayOfInstant t ∧ dayOfInstant t < weekStartDay t + 7 ∧
        (jsGetDay t = 1 → weekStartDay t = dayOfInstant t)) ∧
    weekStartDay (daysFromCivil 2024 12 21 * secondsPerDay) = daysFromCivil 2024 12 16 ∧
    jsGetDay (daysFromCivil 2024 12 21 * secondsPerDay) = 6 ∧
    weekStartDay (daysFromCivil 2024 12 23 * secondsPerDay) = daysFromCivil 2024 12 23 := by
  refine ⟨fun t => ⟨weekStartDay_eq t, getWeekStartDate_eq_weekStartDay_mul t,
    weekday_weekStartDay t, (getWeekStartDate_same_week t).1,
    (getWeekStartDate_same_week t).2, getWeekStartDate_fixed_monday t⟩, ?_, ?_, ?_⟩
  · decide
  · decide
  · decide

/-- C2 witness: the Monday case evaluated on the concrete date 2024-12-23,
discharging the `jsGetDay t = 1` hypothesis there. -/
theorem C2_witness :
    jsGetDay (daysFromCivil 2024 12 23 * secondsPerDay) = 1 ∧
    weekStartDay (daysFromCivil 2024 12 23 * secondsPerDay) =
      dayOfInstant (daysFromCivil 2024 12 23 * secondsPerDay) :=
  ⟨by decide,
    (C2_getWeekStartDate_monday_of_same_week.1
      (daysFromCivil 2024 12 23 * secondsPerDay)).2.2.2.2.2 (by decide)⟩

/-- C8: `week_start` always returns a date whose weekday is Monday, and it
is idempotent: applying it to its own result leaves the result unchanged. -/
theorem C8_weekStart_monday_and_idempotent :
    ∀ t : Int,
      weekdayOfDay (dayOfInstant (getWeekStartDate t)) = 1 ∧
      getWeekStartDate (getWeekStartDate t) = getWeekStartDate t :=
  fun t => ⟨weekday_weekStartDay t, getWeekStartDate_idem t⟩

/-! ## Data model

The three tables of `db/schema.ts`.  `serial` primary keys are modelled by
explicit next-id counters on the store; `defaultNow()` timestamp defaults
are modelled by the `now` instant passed into each operation. -/

/-- A row of `usersTable` (`db/schema.ts` lines 4–12). -/
structure User where
  id : Int
  household_id : String
  inventory_endpoint : String
  slack_channel : Option String
  auto_send_slack : Bool
  created_at : Int
  updated_at : Int
deriving DecidableEq

/-- A row of `inventoryItemsTable` (`db/schema.ts` lines 14–24); the
`expiry_date` date column is a civil day number or `NULL`. -/
structure InventoryItem where
  id : Int
  user_id : Int
  name : String
  quantity : Int
  unit : String
  expiry_date : Option Int
  is_expiring_soon : Bool
  created_at : Int
  updated_at : Int
deriving DecidableEq

/-- A row of `mealPlansTable` (`db/schema.ts` lines 26–34); the
`week_start_date` date column is a civil day number, and `plan_data` and
`shopping_gaps` hold serialized JSON text. -/
structure MealPlan where
  id : Int
  user_id : Int
  week_start_date : Int
  plan_data : String
  shopping_gaps : String
  created_at : Int
  updated_at : Int
deriving DecidableEq

/-- The relational store. -/
structure DB where
  users : List User
  items : List InventoryItem
  mealPlans : List MealPlan
  nextUserId : Int
  nextItemId : Int
  nextPlanId : Int
deriving DecidableEq

/-! ## Account manager: `connectUser` (`connect_user.ts`) -/

/-- JS `x || null` applied to a nullable-optional string: `undefined`,
`null` and the empty string are all falsy and yield `null`. -/
def jsOrNull : Option String → Option String
  | some s => if s = "" then none else some s
  | none => none

/-- Input of `connectUser` after zod parsing (`connectUserInputSchema`):
`auto_send_slack` has already received its zod default `false`, so it is a
plain boolean; `slack_channel` may be absent or null, collapsed to
`Option`. -/
structure ConnectUserInput where
  household_id : String
  inventory_endpoint : String
  slack_channel : Option String
  auto_send_slack : Bool

/-- `connectUser` from `connect_user.ts` (lines 6–47): look up an account
by household id; update it in place when found, insert a new row
otherwise.  Returns the new store and the returned account row. -/
def connectUser (db : DB) (input : ConnectUserInput) (now : Int) : DB × User :=
  match db.users.find? (fun u => u.household_id == input.household_id) with
  | some existingUser =>
      let updatedUser : User :=
        { existingUser with
          inventory_endpoint := input.inventory_endpoint
          slack_channel := jsOrNull input.slack_channel
          auto_send_slack := (input.auto_send_slack || false)
          updated_at := now }
      ({ db with
          users := db.users.map fun u => if u.id == existingUser.id then updatedUser else u },
        updatedUser)
  | none =>
      let newUser : User :=
        { id := db.nextUserId
          household_id := input.household_id
          inventory_endpoint := input.inventory_endpoint
          slack_channel := jsOrNull input.slack_channel
          auto_send_slack := (input.auto_send_slack || false)
          created_at := now
          updated_at := now }
      ({ db with users := db.users ++ [newUser], nextUserId := db.nextUserId + 1 },
        newUser)

theorem find?_map_replace (l : List User) (e u1 : User) (h : String)
    (hfind : l.find? (fun u => u.household_id == h) = some e)
    (hu1 : u1.household_id = h) :
    (l.map fun u => if u.id == e.id then u1 else u).find?
        (fun u => u.household_id == h) = some u1 := by
  induction l with
  | nil => simp at hfind
  | cons a l ih =>
    by_cases hid : a.id == e.id
    · simp only [List.map_cons, hid, if_pos]
      rw [List.find?_cons_of_pos]
      simp [hu1]
    · simp only [List.map_cons, hid, if_neg, Bool.not_eq_true]
      by_cases hm : a.household_id == h
      · exfalso
        rw [List.find?_cons_of_pos (p := fun (u : User) => u.household_id == h) _ hm] at hfind
        have : a = e := by injection hfind
        subst this
        simp at hid
      · rw [List.find?_cons_of_neg (p := fun (u : User) => u.household_id == h) _ hm] at hfind
        rw [List.find?_cons_of_neg (p := fun (u : User) => u.household_id == h) _ hm]
        exact ih hfind

theorem connectUser_find_self (db : DB) (input : ConnectUserInput) (now : Int) :
    (connectUser db input now).1.users.find?
        (fun u => u.household_id == input.household_id) =
      some (connectUser db input now).2 := by
  unfold connectUser
  rcases hfind : db.users.find? (fun u => u.household_id == input.household_id) with _ | e
  · simp only [hfind, List.find?_append]
    simp
  · simp only [hfind]
    refine find?_map_replace _ _ _ _ hfind ?_
    have := List.find?_some hfind
    simpa using this

theorem connectUser_snd_updated_at (db : DB) (input : ConnectUserInput) (now : Int) :
    (connectUser db input now).2.updated_at = now := by
  unfold connectUser
  rcases hfind : db.users.find? (fun u => u.household_id == input.household_id) with _ | e <;>
    simp [hfind]

theorem connectUser_of_found (db : DB) (input : ConnectUserInput) (now : Int) (e : User)
    (hfind : db.users.find? (fun u => u.household_id == input.household_id) = some e) :
    connectUser db input now =
      ({ db with
          users := db.users.map fun u => if u.id == e.id then
            { e with
              inventory_endpoint := input.inventory_endpoint
              slack_channel := jsOrNull input.slack_channel
              auto_send_slack := (input.auto_send_slack || false)
              updated_at := now } else u },
        { e with
          inventory_endpoint := input.inventory_endpoint
          slack_channel := jsOrNull input.slack_channel
          auto_send_slack := (input.auto_send_slack || false)
          updated_at := now }) := by
  unfold connectUser
  rw [hfind]

/-- C3: connecting twice with the same household identifier yields the same
account id both times; the second call overwrites endpoint, channel
(falling back to null when not supplied) and the auto-notify flag, leaves
the created-timestamp unchanged, and strictly increases the
updated-timestamp (the clock having advanced between the calls). -/
theorem C3_connectUser_upsert (db : DB) (in1 in2 : ConnectUserInput) (t1 t2 : Int)
    (hh : in1.household_id = in2.household_id) (ht : t1 < t2) :
    (connectUser (connectUser db in1 t1).1 in2 t2).2.id =
        (connectUser db in1 t1).2.id ∧
    (connectUser (connectUser db in1 t1).1 in2 t2).2.inventory_endpoint =
        in2.inventory_endpoint ∧
    (connectUser (connectUser db in1 t1).1 in2 t2).2.slack_channel =
        jsOrNull in2.slack_channel ∧
    (connectUser (connectUser db in1 t1).1 in2 t2).2.auto_send_slack =
        (in2.auto_send_slack || false) ∧
    (connectUser (connectUser db in1 t1).1 in2 t2).2.created_at =
        (connectUser db in1 t1).2.created_at ∧
    (connectUser db in1 t1).2.updated_at <
        (connectUser (connectUser db in1 t1).1 in2 t2).2.updated_at := by
  have hfind := connectUser_find_self db in1 t1
  rw [hh] at hfind
  rw [connectUser_of_found _ _ _ _ hfind]
  refine ⟨rfl, rfl, rfl, rfl, rfl, ?_⟩
  rw [connectUser_snd_updated_at]
  exact ht

/-- C3 witness: the upsert property evaluated on a concrete store and two
concrete connect calls for household `"h1"`. -/
theorem C3_witness :
    (connectUser (connectUser ⟨[], [], [], 1, 1, 1⟩ ⟨"h1", "e1", none, false⟩ 100).1
        ⟨"h1", "e2", some "#meals", true⟩ 200).2.id =
      (connectUser ⟨[], [], [], 1, 1, 1⟩ ⟨"h1", "e1", none, false⟩ 100).2.id ∧
    (connectUser (connectUser ⟨[], [], [], 1, 1, 1⟩ ⟨"h1", "e1", none, false⟩ 100).1
        ⟨"h1", "e2", some "#meals", true⟩ 200).2.inventory_endpoint =
      (⟨"h1", "e2", some "#meals", true⟩ : ConnectUserInput).inventory_endpoint ∧
    (connectUser (connectUser ⟨[], [], [], 1, 1, 1⟩ ⟨"h1", "e1", none, false⟩ 100).1
        ⟨"h1", "e2", some "#meals", true⟩ 200).2.slack_channel =
      jsOrNull (⟨"h1", "e2", some "#meals", true⟩ : ConnectUserInput).slack_channel ∧
    (connectUser (connectUser ⟨[], [], [], 1, 1, 1⟩ ⟨"h1", "e1", none, false⟩ 100).1
        ⟨"h1", "e2", some "#meals", true⟩ 200).2.auto_send_slack =
      ((⟨"h1", "e2", some "#meals", true⟩ : ConnectUserInput).auto_send_slack || false) ∧
    (connectUser (connectUser ⟨[], [], [], 1, 1, 1⟩ ⟨"h1", "e1", none, false⟩ 100).1
        ⟨"h1", "e2", some "#meals", true⟩ 200).2.created_at =
      (connectUser ⟨[], [], [], 1, 1, 1⟩ ⟨"h1", "e1", none, false⟩ 100).2.created_at ∧
    (connectUser ⟨[], [], [], 1, 1, 1⟩ ⟨"h1", "e1", none, false⟩ 100).2.updated_at <
      (connectUser (connectUser ⟨[], [], [], 1, 1, 1⟩ ⟨"h1", "e1", none, false⟩ 100).1
        ⟨"h1", "e2", some "#meals", true⟩ 200).2.updated_at :=
  C3_connectUser_upsert ⟨[], [], [], 1, 1, 1⟩ ⟨"h1", "e1", none, false⟩
    ⟨"h1", "e2", some "#meals", true⟩ 100 200 rfl (by decide)

/-! ## Inventory sync: `refreshInventory` (unnamed handler file `part_001`)
and the inventory reader `getInventory` (`get_inventory.ts`) -/

/-- One entry of the upstream Lakebase payload
(`lakebaseInventoryItemSchema`): the nullable `expiry_date` date string is
a civil day number in the model. -/
structure LakebaseInventoryItem where
  name : String
  quantity : Int
  unit : String
  expiry_date : Option Int
deriving DecidableEq

/-- The upstream payload shape (`lakebaseInventoryResponseSchema`). -/
structure LakebaseInventoryResponse where
  items : List LakebaseInventoryItem
  status : String
deriving DecidableEq

/-- Outcome of the upstream fetch inside `refreshInventory`: an HTTP
failure (`!response.ok`), a body rejected by
`lakebaseInventoryResponseSchema.parse`, or a schema-valid payload.  The
fetch is an external call, so its outcome is an explicit argument. -/
inductive FetchResult where
  | httpError (status : Int) (statusText : String)
  | invalidShape
  | payload (resp : LakebaseInventoryResponse)
deriving DecidableEq

/-- The expiring-soon flag computed at refresh time (`part_001` lines
48–56): `threeDaysFromNow` is `now` plus three days at the same time of
day, and the parsed expiry instant (midnight of the expiry day) is
compared against it; a missing date yields false. -/
def refresh_isExpiringSoon (now : Int) (expiry_date : Option Int) : Bool :=
  match expiry_date with
  | some d => decide (d * secondsPerDay ≤ now + 3 * secondsPerDay)
  | none => false

/-- The rows inserted for the validated payload (`part_001` lines 52–72),
taking successive serial ids; timestamps default to `now`. -/
def insertNewItems (uid now nextId : Int) :
    List LakebaseInventoryItem → List InventoryItem
  | [] => []
  | item :: rest =>
      { id := nextId
        user_id := uid
        name := item.name
        quantity := item.quantity
        unit := item.unit
        expiry_date := item.expiry_date
        is_expiring_soon := refresh_isExpiringSoon now item.expiry_date
        created_at := now
        updated_at := now } :: insertNewItems uid now (nextId + 1) rest

/-- `refreshInventory` from the unnamed handler file `part_001` (lines
6–89): look up the account, validate the fetched payload (HTTP status,
schema shape, payload status field — all before any write), then delete
every item of the account, insert the mapped payload rows, and re-read the
items of the account.  The returned store is the store at the point the
operation finished or failed; every failure path returns the untouched
input store because all validation precedes the delete. -/
def refreshInventory (db : DB) (user_id : Int) (fetch : FetchResult) (now : Int) :
    DB × Except String (List InventoryItem) :=
  match db.users.find? (fun u => u.id == user_id) with
  | none => (db, .error ("User with id " ++ toString user_id ++ " not found"))
  | some _ =>
    match fetch with
    | .httpError status statusText =>
        (db, .error ("Failed to fetch inventory data: " ++ toString status ++ " " ++ statusText))
    | .invalidShape => (db, .error "Invalid Lakebase inventory response shape")
    | .payload resp =>
        if resp.status ≠ "success" then
          (db, .error ("Lakebase API returned error status: " ++ resp.status))
        else
          ({ db with
              items := db.items.filter (fun it => !(it.user_id == user_id)) ++
                insertNewItems user_id now db.nextItemId resp.items
              nextItemId := db.nextItemId + (resp.items.length : Int) },
            .ok ((db.items.filter (fun it => !(it.user_id == user_id)) ++
                insertNewItems user_id now db.nextItemId resp.items).filter
              (fun it => it.user_id == user_id)))

/-- The read-time expiring-soon recomputation (`get_inventory.ts` lines
9–11 and 26–38), the same three-day comparison as at refresh time. -/
def getInventory_isExpiringSoon (now : Int) (expiry_date : Option Int) : Bool :=
  match expiry_date with
  | some d => decide (d * secondsPerDay ≤ now + 3 * secondsPerDay)
  | none => false

/-- The ORDER BY of `getInventory`: expiry date ascending with nulls
sorted last, ties broken by name ascending.  `invLE a b` is true when `a`
may come no later than `b`. -/
def invLE (a b : InventoryItem) : Bool :=
  match a.expiry_date, b.expiry_date with
  | none, none => !decide (b.name < a.name)
  | none, some _ => false
  | some _, none => true
  | some d1, some d2 => if d1 = d2 then !decide (b.name < a.name) else decide (d1 < d2)

/-- Stable insertion step for the ORDER BY. -/
def insertSorted (x : InventoryItem) : List InventoryItem → List InventoryItem
  | [] => [x]
  | y :: ys => if invLE y x then y :: insertSorted x ys else x :: y :: ys

/-- Stable insertion sort implementing the ORDER BY of `getInventory`. -/
def orderByInv : List InventoryItem → List InventoryItem
  | [] => []
  | x :: xs => insertSorted x (orderByInv xs)

/-- `getInventory` from `get_inventory.ts` (lines 6–44): select the items
of the account in the ORDER BY order and recompute the expiring-soon flag
of each row against the current instant. -/
def getInventory (db : DB) (user_id : Int) (now : Int) : List InventoryItem :=
  (orderByInv (db.items.filter (fun it => it.user_id == user_id))).map
    fun item =>
      { item with is_expiring_soon := getInventory_isExpiringSoon now item.expiry_date }

theorem mem_insertNewItems (uid now : Int) (l : List LakebaseInventoryItem) :
    ∀ (nid : Int) (it : InventoryItem), it ∈ insertNewItems uid now nid l →
      it.user_id = uid ∧
        it.is_expiring_soon = refresh_isExpiringSoon now it.expiry_date := by
  induction l with
  | nil => intro nid it h; simp [insertNewItems] at h
  | cons a l ih =>
    intro nid it h
    simp only [insertNewItems] at h
    rcases List.mem_cons.mp h with rfl | h2
    · exact ⟨rfl, rfl⟩
    · exact ih _ _ h2

theorem map_name_insertNewItems (uid now : Int) (l : List LakebaseInventoryItem) :
    ∀ nid : Int,
      (insertNewItems uid now nid l).map (fun it => it.name) =
        l.map (fun i => i.name) := by
  induction l with
  | nil => intro nid; rfl
  | cons a l ih =>
    intro nid
    simp only [insertNewItems, List.map_cons]
    rw [ih]

theorem filter_erased (l : List InventoryItem) (uid : Int) :
    (l.filter (fun it => !(it.user_id == uid))).filter
        (fun it => it.user_id == uid) = [] := by
  induction l with
  | nil => rfl
  | cons a l ih =>
    by_cases ha : a.user_id == uid
    · simp [List.filter_cons, ha, ih]
    · simp [List.filter_cons, ha, ih]

theorem refreshInventory_ok (db : DB) (uid : Int) (resp : LakebaseInventoryResponse)
    (now : Int) (db2 : DB) (out : List InventoryItem)
    (h : refreshInventory db uid (.payload resp) now = (db2, .ok out)) :
    db2.items = db.items.filter (fun it => !(it.user_id == uid)) ++
        insertNewItems uid now db.nextItemId resp.items ∧
    out = db2.items.filter (fun it => it.user_id == uid) := by
  unfold refreshInventory at h
  rcases hfind : db.users.find? (fun u => u.id == uid) with _ | u
  · rw [hfind] at h; simp at h
  · rw [hfind] at h
    dsimp only at h
    by_cases hst : resp.status ≠ "success"
    · rw [if_pos hst] at h; simp at h
    · rw [if_neg hst] at h
      injection h with h1 h2
      injection h2 with h2
      subst h1
      subst h2
      exact ⟨rfl, rfl⟩

theorem expiring_window_iff (now d : Int) :
    (d * secondsPerDay ≤ now + 3 * secondsPerDay) ↔ d ≤ dayOfInstant now + 3 := by
  unfold dayOfInstant secondsPerDay
  omega

/-- C1: for every reference instant and expiry date, the derived
expiring-soon flag is true iff an expiry date is present and is on or
before now plus three days; an absent date yields false; a date exactly
three days away yields true and exactly four days away yields false.  The
refresh-time computation (`refreshInventory`) and the read-time
recomputation (`getInventory`) agree, and the flag carried by every item
returned by either operation obeys this rule. -/
theorem C1_expiring_soon_window :
    (∀ (now : Int) (e : Option Int),
        refresh_isExpiringSoon now e = getInventory_isExpiringSoon now e ∧
        (refresh_isExpiringSoon now e = true ↔
          ∃ d, e = some d ∧ d ≤ dayOfInstant now + 3) ∧
        refresh_isExpiringSoon now none = false ∧
        refresh_isExpiringSoon now (some (dayOfInstant now + 3)) = true ∧
        refresh_isExpiringSoon now (some (dayOfInstant now + 4)) = false) ∧
    (∀ (db : DB) (uid : Int) (f : FetchResult) (now : Int) (db2 : DB)
        (out : List InventoryItem),
        refreshInventory db uid f now = (db2, .ok out) →
        ∀ it ∈ out,
          it.is_expiring_soon = refresh_isExpiringSoon now it.expiry_date) ∧
    (∀ (db : DB) (uid now : Int),
        ∀ it ∈ getInventory db uid now,
          it.is_expiring_soon = getInventory_isExpiringSoon now it.expiry_date) := by
  refine ⟨fun now e => ⟨?_, ?_, rfl, ?_, ?_⟩, ?_, ?_⟩
  · cases e <;> rfl
  · cases e with
    | none => simp [refresh_isExpiringSoon]
    | some d =>
        simp only [refresh_isExpiringSoon, decide_eq_true_eq, Option.some.injEq]
        rw [expiring_window_iff]
        constructor
        · intro hd; exact ⟨d, rfl, hd⟩
        · rintro ⟨d2, rfl, hd⟩; exact hd
  · simp only [refresh_isExpiringSoon, decide_eq_true_eq]
    unfold dayOfInstant secondsPerDay
    omega
  · simp only [refresh_isExpiringSoon]
    rw [decide_eq_false_iff_not]
    unfold dayOfInstant secondsPerDay
    omega
  · intro db uid f now db2 out h it hmem
    cases f with
    | httpError st stext =>
        unfold refreshInventory at h
        rcases hfind : db.users.find? (fun u => u.id == uid) with _ | u <;>
          rw [hfind] at h <;> simp at h
    | invalidShape =>
        unfold refreshInventory at h
        rcases hfind : db.users.find? (fun u => u.id == uid) with _ | u <;>
          rw [hfind] at h <;> simp at h
    | payload resp =>
        obtain ⟨hitems, hout⟩ := refreshInventory_ok db uid resp now db2 out h
        rw [hout, hitems, List.filter_append] at hmem
        rcases List.mem_append.mp hmem with h1 | h1
        · rw [filter_erased] at h1; simp at h1
        · exact (mem_insertNewItems uid now resp.items db.nextItemId it
            (List.mem_of_mem_filter h1)).2
  · intro db uid now it hmem
    obtain ⟨a, -, rfl⟩ := List.mem_map.mp hmem
    rfl

/-- C1 witness: the stored-flag conjunct evaluated on a concrete
successful refresh whose single item expires two days after the reference
instant. -/
theorem C1_witness :
    (⟨1, 1, "milk", 1, "L", some 2, true, 0, 0⟩ : InventoryItem).is_expiring_soon =
      refresh_isExpiringSoon 0
        (⟨1, 1, "milk", 1, "L", some 2, true, 0, 0⟩ : InventoryItem).expiry_date :=
  C1_expiring_soon_window.2.1
    ⟨[⟨1, "h1", "ep", none, false, 0, 0⟩], [], [], 2, 1, 1⟩ 1
    (.payload ⟨[⟨"milk", 1, "L", some 2⟩], "success"⟩) 0
    ⟨[⟨1, "h1", "ep", none, false, 0, 0⟩],
      [⟨1, 1, "milk", 1, "L", some 2, true, 0, 0⟩], [], 2, 2, 1⟩
    [⟨1, 1, "milk", 1, "L", some 2, true, 0, 0⟩]
    (by rfl) ⟨1, 1, "milk", 1, "L", some 2, true, 0, 0⟩ (by simp)

/-- C4: refresh is a full replacement.  After two successful refreshes for
the same account whose payloads have disjoint item names, the stored
inventory of the account consists of exactly the items of the second payload
(same names, in payload order) and contains none of the names of the first
payload. -/
theorem C4_refresh_full_replacement (db db1 db2 : DB) (uid t1 t2 : Int)
    (r1 r2 : LakebaseInventoryResponse) (out1 out2 : List InventoryItem)
    (hdisj : ∀ n, n ∈ r1.items.map (fun i => i.name) →
      n ∉ r2.items.map (fun i => i.name))
    (h1 : refreshInventory db uid (.payload r1) t1 = (db1, .ok out1))
    (h2 : refreshInventory db1 uid (.payload r2) t2 = (db2, .ok out2)) :
    (db2.items.filter (fun it => it.user_id == uid)).map (fun it => it.name) =
      r2.items.map (fun i => i.name) ∧
    ∀ it ∈ db2.items, it.user_id = uid →
      it.name ∉ r1.items.map (fun i => i.name) := by
  obtain ⟨hitems, -⟩ := refreshInventory_ok db1 uid r2 t2 db2 out2 h2
  have hfilter : db2.items.filter (fun it => it.user_id == uid) =
      insertNewItems uid t2 db1.nextItemId r2.items := by
    rw [hitems, List.filter_append, filter_erased, List.nil_append]
    apply List.filter_eq_self.mpr
    intro a ha
    have := (mem_insertNewItems uid t2 r2.items db1.nextItemId a ha).1
    simp [this]
  constructor
  · rw [hfilter]
    exact map_name_insertNewItems uid t2 r2.items db1.nextItemId
  · intro it hit huid hn1
    have hitf : it ∈ db2.items.filter (fun it => it.user_id == uid) :=
      List.mem_filter.mpr ⟨hit, by simp [huid]⟩
    have hmapped : it.name ∈
        (db2.items.filter (fun it => it.user_id == uid)).map (fun it => it.name) :=
      List.mem_map.mpr ⟨it, hitf, rfl⟩
    rw [hfilter, map_name_insertNewItems uid t2 r2.items db1.nextItemId] at hmapped
    exact hdisj it.name hn1 hmapped

/-- C4 witness: the name-replacement conjunct evaluated on a concrete
store after a `bread` refresh followed by a `milk` refresh. -/
theorem C4_witness :
    ((⟨[⟨1, "h1", "ep", none, false, 0, 0⟩],
        [⟨2, 1, "milk", 1, "L", none, false, 10, 10⟩], [], 2, 3, 1⟩ : DB).items.filter
      (fun it => it.user_id == 1)).map (fun it => it.name) =
      (⟨[⟨"milk", 1, "L", none⟩], "success"⟩ :
        LakebaseInventoryResponse).items.map (fun i => i.name) :=
  (C4_refresh_full_replacement
    ⟨[⟨1, "h1", "ep", none, false, 0, 0⟩], [], [], 2, 1, 1⟩
    ⟨[⟨1, "h1", "ep", none, false, 0, 0⟩],
      [⟨1, 1, "bread", 2, "loaf", none, false, 0, 0⟩], [], 2, 2, 1⟩
    ⟨[⟨1, "h1", "ep", none, false, 0, 0⟩],
      [⟨2, 1, "milk", 1, "L", none, false, 10, 10⟩], [], 2, 3, 1⟩
    1 0 10
    ⟨[⟨"bread", 2, "loaf", none⟩], "success"⟩
    ⟨[⟨"milk", 1, "L", none⟩], "success"⟩
    [⟨1, 1, "bread", 2, "loaf", none, false, 0, 0⟩]
    [⟨2, 1, "milk", 1, "L", none, false, 10, 10⟩]
    (by
      intro n hn hn2
      simp only [List.map_cons, List.map_nil, List.mem_singleton] at hn hn2
      subst hn
      exact absurd hn2 (by decide))
    (by rfl) (by rfl)).1

/-- C5: when the upstream response fails schema validation, fails at the
HTTP level, or carries a non-success status field, `refreshInventory`
fails with an upstream error and the whole store — in particular the
stored inventory of the account — is unchanged, because all validation
precedes the delete step. -/
theorem C5_refresh_validation_before_delete (db : DB) (uid : Int)
    (f : FetchResult) (now : Int)
    (h : f = .invalidShape ∨ (∃ st stext, f = .httpError st stext) ∨
      (∃ resp, f = .payload resp ∧ resp.status ≠ "success")) :
    (refreshInventory db uid f now).1 = db ∧
    ∃ msg, (refreshInventory db uid f now).2 = Except.error msg := by
  rcases hfind : db.users.find? (fun u => u.id == uid) with _ | u
  · unfold refreshInventory
    rw [hfind]
    exact ⟨rfl, _, rfl⟩
  · rcases h with rfl | ⟨st, stext, rfl⟩ | ⟨resp, rfl, hst⟩
    · unfold refreshInventory
      rw [hfind]
      exact ⟨rfl, _, rfl⟩
    · unfold refreshInventory
      rw [hfind]
      exact ⟨rfl, _, rfl⟩
    · unfold refreshInventory
      rw [hfind]
      dsimp only
      rw [if_pos hst]
      exact ⟨rfl, _, rfl⟩

/-- C5 witness: a payload whose own status field is `"error"` leaves a
concrete store untouched and yields an error result. -/
theorem C5_witness :
    (refreshInventory ⟨[⟨1, "h1", "ep", none, false, 0, 0⟩], [], [], 2, 1, 1⟩ 1
        (.payload ⟨[], "error"⟩) 5).1 =
      ⟨[⟨1, "h1", "ep", none, false, 0, 0⟩], [], [], 2, 1, 1⟩ ∧
    ∃ msg,
      (refreshInventory ⟨[⟨1, "h1", "ep", none, false, 0, 0⟩], [], [], 2, 1, 1⟩ 1
        (.payload ⟨[], "error"⟩) 5).2 = Except.error msg :=
  C5_refresh_validation_before_delete
    ⟨[⟨1, "h1", "ep", none, false, 0, 0⟩], [], [], 2, 1, 1⟩ 1
    (.payload ⟨[], "error"⟩) 5
    (Or.inr (Or.inr ⟨⟨[], "error"⟩, rfl, by decide⟩))

/-! ## Account settings: `updateUserSettings` (`update_user_settings.ts`) -/

/-- Input of `updateUserSettings` (`updateUserSettingsInputSchema`): the
optional fields distinguish omitted (`undefined`, outer `none`) from
explicitly supplied; the nullable channel nests a second option so that an
explicit null (`some none`) clears the field. -/
structure UpdateUserSettingsInput where
  id : Int
  slack_channel : Option (Option String)
  auto_send_slack : Option Bool

/-- The per-row effect of the UPDATE in `update_user_settings.ts` (lines
8–26): `updated_at` is always set; each optional field is written only
when it was supplied. -/
def applySettingsUpdate (input : UpdateUserSettingsInput) (now : Int) (u : User) : User :=
  { u with
    updated_at := now
    slack_channel := match input.slack_channel with
      | some v => v
      | none => u.slack_channel
    auto_send_slack := match input.auto_send_slack with
      | some v => v
      | none => u.auto_send_slack }

/-- `updateUserSettings` from `update_user_settings.ts` (lines 6–37): run
the UPDATE over every row with the given id and return the first updated
row (`result[0]`); when no row matched, fail with a not-found error — the
store is unchanged in that case because the UPDATE affected no row. -/
def updateUserSettings (db : DB) (input : UpdateUserSettingsInput) (now : Int) :
    DB × Except String User :=
  match db.users.find? (fun u => u.id == input.id) with
  | none => (db, .error ("User with id " ++ toString input.id ++ " not found"))
  | some u =>
      ({ db with users := db.users.map fun v =>
          if v.id == input.id then applySettingsUpdate input now v else v },
        .ok (applySettingsUpdate input now u))

/-- C7: updating settings on a non-existent account id fails with a
not-found error and leaves the store unchanged; on an existing account it
applies exactly the supplied fields (omitted fields kept, explicit null
clearing the channel), always refreshes the updated-timestamp, keeps id,
household id, endpoint and created-timestamp, and leaves every other
account row in place. -/
theorem C7_updateUserSettings_supplied_fields (db : DB)
    (input : UpdateUserSettingsInput) (now : Int) :
    ((∀ u ∈ db.users, u.id ≠ input.id) →
      (updateUserSettings db input now).1 = db ∧
      ∃ msg, (updateUserSettings db input now).2 = Except.error msg) ∧
    (∀ u, db.users.find? (fun v => v.id == input.id) = some u →
      (updateUserSettings db input now).2 =
        Except.ok (applySettingsUpdate input now u) ∧
      (applySettingsUpdate input now u).id = u.id ∧
      (applySettingsUpdate input now u).household_id = u.household_id ∧
      (applySettingsUpdate input now u).inventory_endpoint = u.inventory_endpoint ∧
      (applySettingsUpdate input now u).created_at = u.created_at ∧
      (applySettingsUpdate input now u).updated_at = now ∧
      (applySettingsUpdate input now u).slack_channel =
        (match input.slack_channel with
          | some v => v
          | none => u.slack_channel) ∧
      (applySettingsUpdate input now u).auto_send_slack =
        (match input.auto_send_slack with
          | some v => v
          | none => u.auto_send_slack) ∧
      (∀ v ∈ db.users, v.id ≠ input.id →
        v ∈ (updateUserSettings db input now).1.users)) := by
  constructor
  · intro hnone
    have hfind : db.users.find? (fun u => u.id == input.id) = none := by
      rw [List.find?_eq_none]
      intro a ha
      simp [hnone a ha]
    unfold updateUserSettings
    rw [hfind]
    exact ⟨rfl, _, rfl⟩
  · intro u hfind
    unfold updateUserSettings
    rw [hfind]
    refine ⟨rfl, rfl, rfl, rfl, rfl, rfl, rfl, rfl, ?_⟩
    intro v hv hne
    exact List.mem_map.mpr ⟨v, hv, by simp [hne]⟩

/-- C7 witness: an explicit-null channel update on a concrete account,
discharging the lookup hypothesis by computation. -/
theorem C7_witness :
    (updateUserSettings ⟨[⟨1, "h1", "ep", some "#old", true, 0, 0⟩], [], [], 2, 1, 1⟩
        ⟨1, some none, none⟩ 50).2 =
      Except.ok (applySettingsUpdate ⟨1, some none, none⟩ 50
        ⟨1, "h1", "ep", some "#old", true, 0, 0⟩) :=
  ((C7_updateUserSettings_supplied_fields
      ⟨[⟨1, "h1", "ep", some "#old", true, 0, 0⟩], [], [], 2, 1, 1⟩
      ⟨1, some none, none⟩ 50).2
    ⟨1, "h1", "ep", some "#old", true, 0, 0⟩ (by rfl)).1

/-! ## Healthcheck (`healthcheck.ts`) -/

/-- The response shape of `healthcheck.ts` (lines 4–9); the ISO timestamp
string is an instant in the model. -/
structure HealthcheckResponse where
  status : String
  timestamp : Int
  database : Bool
  external_apis : Bool
deriving DecidableEq

/-- `healthcheck` from `healthcheck.ts` (lines 11–49): probe the store
(outcome passed in, since the store probe is an external effect), set the
external-API flag statically to true, and combine the two into
ok/degraded/error. -/
def healthcheck (dbProbeOk : Bool) (now : Int) : HealthcheckResponse :=
  let databaseStatus := dbProbeOk
  let externalApisStatus := true
  let overallStatus :=
    if databaseStatus && externalApisStatus then "ok"
    else if databaseStatus || externalApisStatus then "degraded"
    else "error"
  { status := overallStatus, timestamp := now
    database := databaseStatus, external_apis := externalApisStatus }

/-- C10: the health check never reports overall status `"error"`: with the
external-dependency flag statically true, a successful store probe yields
`"ok"` with `database = true` and a failed probe yields `"degraded"` with
`database = false`. -/
theorem C10_healthcheck_never_error :
    ∀ (b : Bool) (now : Int),
      (healthcheck b now).status ≠ "error" ∧
      healthcheck true now =
        { status := "ok", timestamp := now, database := true, external_apis := true } ∧
      healthcheck false now =
        { status := "degraded", timestamp := now, database := false,
          external_apis := true } := by
  intro b now
  refine ⟨?_, rfl, rfl⟩
  cases b
  · exact (by decide : ("degraded" : String) ≠ "error")
  · exact (by decide : ("ok" : String) ≠ "error")

/-! ## Meal plans: `generateMealPlan` (`generate_meal_plan.ts`) and the
reader `getMealPlan` (`get_meal_plan.ts`) -/

/-- A single meal entry (`dailyMealSchema` inner objects). -/
structure Meal where
  title : String
  ingredients_summary : String
deriving DecidableEq

/-- One day of a generated plan (`dailyMealSchema`); the date string is a
civil day number in the model. -/
structure DailyMeal where
  date : Int
  breakfast : Meal
  lunch : Meal
  dinner : Meal
deriving DecidableEq

/-- The weekly plan structure (`weeklyMealPlanSchema`). -/
structure WeeklyMealPlan where
  week_start_date : Int
  daily_meals : List DailyMeal
deriving DecidableEq

/-- One shopping-gap entry (`shoppingGapItemSchema`). -/
structure ShoppingGapItem where
  ingredient : String
  quantity_needed : String
  used_for_meals : List String
deriving DecidableEq

/-- The meal-plan generation API response
(`mealPlanGenerationResponseSchema`). -/
structure MealPlanGenerationResponse where
  meal_plan : WeeklyMealPlan
  shopping_gaps : List ShoppingGapItem
  status : String
deriving DecidableEq

/-- Input of `generateMealPlan` (`generateMealPlanInputSchema`): the
optional week-start date string is modelled by the instant it parses to
(midnight of the named day). -/
structure GenerateMealPlanInput where
  user_id : Int
  week_start_date : Option Int

/-- `generateMealPlan` from `generate_meal_plan.ts` (lines 72–125): look
up the account, compute the canonical week start from the supplied date or
the current instant, call the external generation API (outcome passed in;
`none` models a body rejected by `mealPlanGenerationResponseSchema.parse`),
serialize plan and gap list (`JSON.stringify`, passed in as explicit
serializers) and insert the new plan row.  The auto-notify step of this
source file is a logging stub with no store effect, so it does not appear
in the state. -/
def generateMealPlan (db : DB) (input : GenerateMealPlanInput)
    (api : Option MealPlanGenerationResponse)
    (serializePlan : WeeklyMealPlan → String)
    (serializeGaps : List ShoppingGapItem → String)
    (now : Int) : DB × Except String MealPlan :=
  match db.users.find? (fun u => u.id == input.user_id) with
  | none => (db, .error ("User with id " ++ toString input.user_id ++ " not found"))
  | some _ =>
    match api with
    | none => (db, .error "Invalid meal plan generation response")
    | some resp =>
        ({ db with
            mealPlans := db.mealPlans ++
              [{ id := db.nextPlanId
                 user_id := input.user_id
                 week_start_date := weekStartDay (match input.week_start_date with
                   | some t => t
                   | none => now)
                 plan_data := serializePlan resp.meal_plan
                 shopping_gaps := serializeGaps resp.shopping_gaps
                 created_at := now
                 updated_at := now }]
            nextPlanId := db.nextPlanId + 1 },
          .ok { id := db.nextPlanId
                user_id := input.user_id
                week_start_date := weekStartDay (match input.week_start_date with
                  | some t => t
                  | none => now)
                plan_data := serializePlan resp.meal_plan
                shopping_gaps := serializeGaps resp.shopping_gaps
                created_at := now
                updated_at := now })

/-- The default-week computation of `get_mean_plan.ts`, see lines 22–31 of
`get_meal_plan.ts`: from the current instant, add
`daysToMonday = (dayOfWeek == 0 ? -6 : 1 - dayOfWeek)` days and take the
date part of `toISOString()` — no midnight normalization step. -/
def getMealPlanDefaultWeek (now : Int) : Int :=
  dayOfInstant (now + (if jsGetDay now = 0 then -6 else 1 - jsGetDay now) * secondsPerDay)

/-- `getMealPlan` from `get_meal_plan.ts` (lines 17–58): resolve the
target week — the supplied date verbatim, or the default-week computation
— and return the first plan row of the account for exactly that week
(`results[0]`, with an identity conversion of the stored date). -/
def getMealPlan (db : DB) (user_id : Int) (week_start_date : Option Int)
    (now : Int) : Option MealPlan :=
  db.mealPlans.find? fun mp =>
    mp.user_id == user_id &&
    mp.week_start_date ==
      (match week_start_date with
       | some d => d
       | none => getMealPlanDefaultWeek now)

theorem dayOfInstant_add_days (t k : Int) :
    dayOfInstant (t + k * secondsPerDay) = dayOfInstant t + k := by
  unfold dayOfInstant secondsPerDay
  omega

theorem getMealPlanDefaultWeek_eq_weekStartDay (now : Int) :
    getMealPlanDefaultWeek now = weekStartDay now := by
  have h := weekStartDay_eq now
  unfold getMealPlanDefaultWeek
  by_cases h0 : jsGetDay now = 0
  · rw [if_pos h0, dayOfInstant_add_days]
    rw [h0] at h
    omega
  · rw [if_neg h0, dayOfInstant_add_days]
    unfold jsGetDay weekdayOfDay at h h0 ⊢
    omega

/-- C9: the default week used by the plan reader equals the generator
Monday normalization applied to the same current instant, matching the
week-start day persisted by a generate call with no explicit date at that
instant; an explicitly supplied week date is matched verbatim against
stored week-start dates — the result does not depend on the clock and any
returned plan carries exactly the supplied date. -/
theorem C9_reader_default_week_refines_generator :
    (∀ now : Int, getMealPlanDefaultWeek now = weekStartDay now) ∧
    (∀ (db : DB) (input : GenerateMealPlanInput)
        (api : Option MealPlanGenerationResponse)
        (sp : WeeklyMealPlan → String) (sg : List ShoppingGapItem → String)
        (now : Int) (db2 : DB) (mp : MealPlan),
        input.week_start_date = none →
        generateMealPlan db input api sp sg now = (db2, .ok mp) →
        mp.week_start_date = getMealPlanDefaultWeek now) ∧
    (∀ (db : DB) (uid d now now2 : Int),
        getMealPlan db uid (some d) now = getMealPlan db uid (some d) now2) ∧
    (∀ (db : DB) (uid d now : Int) (mp : MealPlan),
        getMealPlan db uid (some d) now = some mp →
        mp.user_id = uid ∧ mp.week_start_date = d) := by
  refine ⟨getMealPlanDefaultWeek_eq_weekStartDay, ?_, ?_, ?_⟩
  · intro db input api sp sg now db2 mp hnone h
    unfold generateMealPlan at h
    rcases hfind : db.users.find? (fun u => u.id == input.user_id) with _ | u <;>
      rw [hfind] at h
    · simp at h
    · cases api with
      | none => simp at h
      | some resp =>
          dsimp only at h
          injection h with h1 h2
          injection h2 with h2
          rw [← h2, hnone, getMealPlanDefaultWeek_eq_weekStartDay]
  · intro db uid d now now2
    rfl
  · intro db uid d now mp h
    have hp := List.find?_some h
    simp only [Bool.and_eq_true, beq_iff_eq] at hp
    exact hp

/-- C9 witness: a generate call with no explicit date at instant 0 stores
week-start day −3 (Monday 1969-12-29), which equals the default reader
week for the same instant. -/
theorem C9_witness :
    (⟨1, 1, -3, "p", "g", 0, 0⟩ : MealPlan).week_start_date =
      getMealPlanDefaultWeek 0 :=
  C9_reader_default_week_refines_generator.2.1
    ⟨[⟨1, "h1", "ep", none, false, 0, 0⟩], [], [], 2, 1, 1⟩
    ⟨1, none⟩ (some ⟨⟨0, []⟩, [], "success"⟩)
    (fun _ => "p") (fun _ => "g") 0
    ⟨[⟨1, "h1", "ep", none, false, 0, 0⟩], [], [⟨1, 1, -3, "p", "g", 0, 0⟩], 2, 1, 2⟩
    ⟨1, 1, -3, "p", "g", 0, 0⟩ rfl (by rfl)

/-! ## Messaging notifier: `sendToSlack` (unnamed handler file `part_002`) -/

/-- The result value of `sendToSlack` (`slackResponseSchema`). -/
structure SlackResponse where
  success : Bool
  message : String
  channel : Option String
deriving DecidableEq

/-- The inner join of `part_002` lines 9–13: every plan row carrying the
requested id paired with every account row its `user_id` references, in
store order; `results[0]` is the head of this list. -/
def joinPlanUser (db : DB) (meal_plan_id : Int) : List (MealPlan × User) :=
  (db.mealPlans.filter (fun mp => mp.id == meal_plan_id)).bind
    fun mp => (db.users.filter (fun u => u.id == mp.user_id)).map fun u => (mp, u)

/-- The weekday name used by the renderer, the result of JS
`toLocaleDateString` for the en-US long weekday, from the weekday index. -/
def weekdayName (w : Int) : String :=
  if w = 0 then "Sunday"
  else if w = 1 then "Monday"
  else if w = 2 then "Tuesday"
  else if w = 3 then "Wednesday"
  else if w = 4 then "Thursday"
  else if w = 5 then "Friday"
  else "Saturday"

/-- One day block of `formatMealPlanForSlack` (`part_002` lines 75–86). -/
def formatDailyMeal (dm : DailyMeal) : String :=
  "*" ++ weekdayName (weekdayOfDay dm.date) ++ " (" ++ toString dm.date ++ ")*\n" ++
  "🌅 Breakfast: " ++ dm.breakfast.title ++ "\n" ++
  "   _" ++ dm.breakfast.ingredients_summary ++ "_\n" ++
  "🌞 Lunch: " ++ dm.lunch.title ++ "\n" ++
  "   _" ++ dm.lunch.ingredients_summary ++ "_\n" ++
  "🌙 Dinner: " ++ dm.dinner.title ++ "\n" ++
  "   _" ++ dm.dinner.ingredients_summary ++ "_\n\n"

/-- One shopping-gap line of `formatMealPlanForSlack` (`part_002` lines
91–97). -/
def formatGap (gap : ShoppingGapItem) : String :=
  "• " ++ gap.ingredient ++ " (" ++ gap.quantity_needed ++ ")" ++
    (if gap.used_for_meals.length > 0 then
      " - for " ++ String.intercalate ", " gap.used_for_meals
    else "") ++ "\n"

/-- `formatMealPlanForSlack` (`part_002` lines 71–101): a header naming
the week, a block per day, and — when gaps exist — the missing-ingredient
list. -/
def formatMealPlanForSlack (weeklyPlan : WeeklyMealPlan)
    (shoppingGaps : List ShoppingGapItem) : String :=
  if shoppingGaps.length > 0 then
    (weeklyPlan.daily_meals.foldl (fun acc dm => acc ++ formatDailyMeal dm)
        ("🍽️ *Meal Plan for Week Starting " ++
          toString weeklyPlan.week_start_date ++ "*\n\n")) ++
      "🛒 *Shopping List - Missing Ingredients:*\n" ++
      shoppingGaps.foldl (fun acc gap => acc ++ formatGap gap) ""
  else
    weeklyPlan.daily_meals.foldl (fun acc dm => acc ++ formatDailyMeal dm)
      ("🍽️ *Meal Plan for Week Starting " ++
        toString weeklyPlan.week_start_date ++ "*\n\n")

/-- `sendMessageToSlack` (`part_002` lines 103–116): the simulated
delivery throws when channel or message is empty (JS falsiness) and
otherwise resolves. -/
def sendMessageToSlack (channel message : String) : Except String Unit :=
  if channel = "" ∨ message = "" then .error "Invalid Slack channel or message"
  else .ok ()

/-- `sendToSlack` from the unnamed handler file `part_002` (lines 6–69):
every internally thrown error is caught by the surrounding try/catch and
returned as a failure value, so the operation is a total function into
`SlackResponse`; the branches below realize exactly the caught messages.
`JSON.parse` of the two stored text fields is external and is passed in as
explicit parsers, `none` modelling a parse exception. -/
def sendToSlack (db : DB) (meal_plan_id : Int)
    (parsePlan : String → Option WeeklyMealPlan)
    (parseGaps : String → Option (List ShoppingGapItem)) : SlackResponse :=
  match (joinPlanUser db meal_plan_id).head? with
  | none => { success := false, message := "Meal plan not found", channel := none }
  | some (mealPlan, user) =>
    match user.slack_channel with
    | none =>
        { success := false
          message := "User does not have a Slack channel configured"
          channel := none }
    | some ch =>
      if ch = "" then
        { success := false
          message := "User does not have a Slack channel configured"
          channel := none }
      else
        match parsePlan mealPlan.plan_data, parseGaps mealPlan.shopping_gaps with
        | some weeklyPlan, some gaps =>
            match sendMessageToSlack ch (formatMealPlanForSlack weeklyPlan gaps) with
            | .ok _ =>
                { success := true
                  message := "Meal plan sent to Slack successfully"
                  channel := some ch }
            | .error e => { success := false, message := e, channel := none }
        | _, _ =>
            { success := false
              message := "Invalid meal plan data format"
              channel := none }

theorem length_foldl_append_ge {α : Type} (f : α → String) (l : List α) :
    ∀ s : String, s.length ≤ (l.foldl (fun acc x => acc ++ f x) s).length := by
  induction l with
  | nil => intro s; simp
  | cons a l ih =>
    intro s
    simp only [List.foldl_cons]
    have h1 : s.length ≤ (s ++ f a).length := by
      rw [String.length_append]; omega
    exact le_trans h1 (ih (s ++ f a))

theorem formatMealPlanForSlack_ne_empty (p : WeeklyMealPlan)
    (g : List ShoppingGapItem) : formatMealPlanForSlack p g ≠ "" := by
  have h0 : 0 < ("🍽️ *Meal Plan for Week Starting " : String).length := by decide
  have h1 : 0 < ("🍽️ *Meal Plan for Week Starting " ++
      toString p.week_start_date ++ "*\n\n").length := by
    rw [String.length_append, String.length_append]
    omega
  have h2 : 0 < (p.daily_meals.foldl (fun acc dm => acc ++ formatDailyMeal dm)
      ("🍽️ *Meal Plan for Week Starting " ++
        toString p.week_start_date ++ "*\n\n")).length := by
    have := length_foldl_append_ge formatDailyMeal p.daily_meals
      ("🍽️ *Meal Plan for Week Starting " ++ toString p.week_start_date ++ "*\n\n")
    omega
  unfold formatMealPlanForSlack
  by_cases hg : g.length > 0
  · rw [if_pos hg]
    intro he
    have hlen := congrArg String.length he
    rw [String.length_append, String.length_append,
      show ("" : String).length = 0 from rfl] at hlen
    omega
  · rw [if_neg hg]
    intro he
    have hlen := congrArg String.length he
    rw [show ("" : String).length = 0 from rfl] at hlen
    omega

/-- C6: `sendToSlack` is a total function into result values — never an
exception — and the result is determined as follows: a non-existent
meal-plan id yields the not-found failure; an account without a configured
channel (absent or empty) yields the no-channel failure; a parse failure
of either stored text field yields the invalid-format failure; and a
successful delivery yields success with the fixed confirmation message
and the channel name. -/
theorem C6_sendToSlack_result_values (db : DB) (pid : Int)
    (pp : String → Option WeeklyMealPlan)
    (pg : String → Option (List ShoppingGapItem)) :
    ((∀ mp ∈ db.mealPlans, mp.id ≠ pid) →
        sendToSlack db pid pp pg = ⟨false, "Meal plan not found", none⟩) ∧
    (∀ mp u, (joinPlanUser db pid).head? = some (mp, u) →
      (u.slack_channel = none →
        sendToSlack db pid pp pg =
          ⟨false, "User does not have a Slack channel configured", none⟩) ∧
      (∀ c, u.slack_channel = some c → c ≠ "" →
        ((pp mp.plan_data = none ∨ pg mp.shopping_gaps = none) →
          sendToSlack db pid pp pg =
            ⟨false, "Invalid meal plan data format", none⟩) ∧
        (∀ plan gaps, pp mp.plan_data = some plan →
          pg mp.shopping_gaps = some gaps →
          sendToSlack db pid pp pg =
            ⟨true, "Meal plan sent to Slack successfully", some c⟩))) := by
  constructor
  · intro hnone
    have hfilter : db.mealPlans.filter (fun mp => mp.id == pid) = [] := by
      rw [List.filter_eq_nil_iff]
      intro a ha
      simp [hnone a ha]
    unfold sendToSlack joinPlanUser
    rw [hfilter]
    rfl
  · intro mp u hhead
    unfold sendToSlack
    rw [hhead]
    dsimp only
    constructor
    · intro hch
      rw [hch]
    · intro c hch hcne
      rw [hch]
      dsimp only
      rw [if_neg hcne]
      constructor
      · rintro (hp | hp)
        · rw [hp]
        · rw [hp]
          cases hpp : pp mp.plan_data <;> rfl
      · intro plan gaps hp hg2
        rw [hp, hg2]
        dsimp only
        unfold sendMessageToSlack
        rw [if_neg (not_or.mpr ⟨hcne, formatMealPlanForSlack_ne_empty plan gaps⟩)]

/-- C6 witness: a concrete successful delivery — one account with channel
`#meals`, one stored plan, both stored text fields parsing — yields the
fixed confirmation result. -/
theorem C6_witness :
    sendToSlack
        ⟨[⟨1, "h1", "ep", some "#meals", false, 0, 0⟩], [],
          [⟨1, 1, 0, "P", "G", 0, 0⟩], 2, 1, 2⟩ 1
        (fun _ => some ⟨0, []⟩) (fun _ => some []) =
      ⟨true, "Meal plan sent to Slack successfully", some "#meals"⟩ :=
  (((C6_sendToSlack_result_values
      ⟨[⟨1, "h1", "ep", some "#meals", false, 0, 0⟩], [],
        [⟨1, 1, 0, "P", "G", 0, 0⟩], 2, 1, 2⟩ 1
      (fun _ => some ⟨0, []⟩) (fun _ => some [])).2
    ⟨1, 1, 0, "P", "G", 0, 0⟩ ⟨1, "h1", "ep", some "#meals", false, 0, 0⟩
    (by rfl)).2 "#meals" rfl (by decide)).2 ⟨0, []⟩ [] rfl rfl
